import Mathlib

/-!
Verification development for the "egg" battle-royale game engine.

The definitions below are a shallow embedding of the JavaScript engine in
src/game.js (classes PlayerState and GameEngine).  Player identifiers are
modelled as natural numbers; the engine's `players` Map (insertion-ordered,
unique keys) is modelled as a list of player records, and per-player
mutation through the filtered `livingPlayers` view is modelled as a guarded
map over the full list (the guard `isDead` is unchanged during the phases
that use the view, so this is exact).  Presentation-only data (display
names, the isCpu flag, human-readable log strings) is omitted; the one log
event claims refer to — the "GAME SET! Winner: ..." line appended by
`checkDeaths` — is kept as a structured event carrying the winner's id.
-/

namespace Egg

/-- CONFIG.MAX_HP in src/game.js. -/
def MAX_HP : Int := 5

/-- CONFIG.EGG_TIMER in src/game.js. -/
def EGG_TIMER : Int := 2

/-- CONFIG.SAUSAGE_LIMIT in src/game.js. -/
def SAUSAGE_LIMIT : Nat := 2

/-- The MOVES enumeration of src/game.js. -/
inductive Move where
  | attack
  | egg
  | sausage
  | barrier
deriving DecidableEq, Repr

/-- One entry of `PlayerState.eggs`: `{ turnsRemaining, isReflected }`.
`turnsRemaining` is decremented each round and explosion is detected at
`turnsRemaining < 0`, so it is modelled as an integer. -/
structure EggEffect where
  turnsRemaining : Int
  isReflected : Bool
deriving DecidableEq, Repr

/-- PlayerState of src/game.js.  `history` stores the raw `currentMove`
values pushed by the snapshot phase (nullable in JS, hence `Option Move`). -/
structure PlayerState where
  id : Nat
  hp : Int
  eggs : List EggEffect
  history : List (Option Move)
  isDead : Bool
  currentMove : Option Move
  targetId : Option Nat
  hasEggSnapshot : Bool
deriving DecidableEq, Repr

namespace PlayerState

/-- PlayerState.addEgg: push a fresh effect with the initial timer. -/
def addEgg (p : PlayerState) (isReflected : Bool) : PlayerState :=
  { p with eggs := p.eggs ++ [{ turnsRemaining := EGG_TIMER, isReflected := isReflected }] }

/-- PlayerState.removeEgg of src/game.js.  Returns the updated state and
whether anything was removed.  JS `includes` compares object references;
since every element of `curableEggs` is drawn from `eggs` and the curable
predicate depends only on an element's field values, membership (with
structural equality) coincides with the predicate, so the embedding uses
list membership directly. -/
def removeEgg (p : PlayerState) (onlyCurable : Bool) : PlayerState × Bool :=
  if p.eggs.length = 0 then (p, false)
  else
    let curableEggs := p.eggs.filter (fun e => !(onlyCurable && e.isReflected))
    if curableEggs.length = 0 then (p, false)
    else ({ p with eggs := p.eggs.filter (fun e => !(curableEggs.contains e)) }, true)

/-- PlayerState.removeEgg of the earlier engine variant in
src/unnamed/part_000: same as `removeEgg` but fresh effects
(`turnsRemaining = EGG_TIMER`) are additionally excluded from curing. -/
def removeEggV1 (p : PlayerState) (onlyCurable : Bool) : PlayerState × Bool :=
  if p.eggs.length = 0 then (p, false)
  else
    let curableEggs := p.eggs.filter (fun e =>
      !(onlyCurable && e.isReflected) && !(e.turnsRemaining == EGG_TIMER))
    if curableEggs.length = 0 then (p, false)
    else ({ p with eggs := p.eggs.filter (fun e => !(curableEggs.contains e)) }, true)

/-- PlayerState.updateEggs: tick every timer, explode when any goes
negative.  Returns the updated state and whether an explosion occurred. -/
def updateEggs (p : PlayerState) : PlayerState × Bool :=
  let eggs := p.eggs.map (fun e => { e with turnsRemaining := e.turnsRemaining - 1 })
  let exploded := eggs.any (fun e => e.turnsRemaining < 0)
  if exploded then ({ p with eggs := eggs, hp := 0, isDead := true }, true)
  else ({ p with eggs := eggs }, false)

/-- PlayerState.canUseSausage: allowed unless the most recent
`SAUSAGE_LIMIT` committed moves are all Sausage (JS `slice(-n)` on a
history of length ≥ n is `drop (length - n)`). -/
def canUseSausage (p : PlayerState) : Bool :=
  if p.history.length < SAUSAGE_LIMIT then true
  else !((p.history.drop (p.history.length - SAUSAGE_LIMIT)).all
          (fun m => m == some Move.sausage))

end PlayerState

/-- The per-move guard exposed to input handling: only Sausage is ever
constrained (the UI layer checks `canUseSausage` exactly when the chosen
action is Sausage, and no other move has a guard). -/
def canUseMove (p : PlayerState) (m : Move) : Bool :=
  match m with
  | Move.sausage => p.canUseSausage
  | _ => true

/-- The structured log event kept from GameEngine.log: the
"GAME SET! Winner: ..." line of checkDeaths, with the winner's id
(`none` encodes "No One (Draw)"). -/
inductive GameLog where
  | gameSet (winner : Option Nat)
deriving DecidableEq, Repr

/-- GameEngine state (network/UI callback fields omitted). -/
structure GameEngine where
  players : List PlayerState
  turn : Nat
  isGameOver : Bool
  logs : List GameLog
deriving DecidableEq, Repr

namespace GameEngine

/-- The `livingPlayers` view: `players.filter(p => !p.isDead)`. -/
def livingOf (ps : List PlayerState) : List PlayerState :=
  ps.filter (fun p => !p.isDead)

/-- Phase 1 (SNAPSHOT) body, applied to each living player: record
whether they currently hold at least one effect and push the committed
move onto the history. -/
def snapshotP (p : PlayerState) : PlayerState :=
  { p with hasEggSnapshot := decide (0 < p.eggs.length),
           history := p.history ++ [p.currentMove] }

/-- Phase 1 guarded by the `livingPlayers` view. -/
def snapshotStep (p : PlayerState) : PlayerState :=
  if p.isDead then p else snapshotP p

/-- Phase 1 (SNAPSHOT) over the whole roster. -/
def snapshotPhase (ps : List PlayerState) : List PlayerState :=
  ps.map snapshotStep

/-- The per-defender cure of phase 2 (INTERACTION): a living defender who
committed Sausage and whose snapshot shows an effect attempts
`removeEgg(true)`.  (In the JS loop this happens interleaved with the
accumulation of the damage/egg maps, but the cure touches only the
defender's own `eggs` list, which the map accumulation never reads, so
the two are order-independent and embedded as separate passes.) -/
def cureStep (p : PlayerState) : PlayerState :=
  if p.isDead then p
  else if p.currentMove == some Move.sausage && p.hasEggSnapshot then
    (p.removeEgg true).1
  else p

/-- The cure pass over the whole roster. -/
def curePhase (ps : List PlayerState) : List PlayerState :=
  ps.map cureStep

/-- The three per-id accumulators of phase 2: damageMap, eggMap,
refEggMap (total functions defaulting to 0, matching the JS `|| 0`). -/
@[ext]
structure Maps where
  damage : Nat → Nat
  egg : Nat → Nat
  refEgg : Nat → Nat

/-- The JS increment map.set(i, (map.get(i) || 0) + 1). -/
def bump (m : Nat → Nat) (i : Nat) : Nat → Nat :=
  fun j => if j = i then m i + 1 else m j

/-- The attackers of a defender:
`livingPlayers.filter(p => p.targetId === defender.id && p.id !== defender.id)`. -/
def attackersOf (living : List PlayerState) (d : PlayerState) : List PlayerState :=
  living.filter (fun p => p.targetId == some d.id && p.id != d.id)

/-- One attacker/defender interaction of phase 2, updating the
accumulators exactly as the JS branch structure does. -/
def interactPair (d a : PlayerState) (ms : Maps) : Maps :=
  match a.currentMove with
  | some Move.attack =>
      if d.currentMove == some Move.sausage && !d.hasEggSnapshot then
        { ms with damage := bump ms.damage a.id }
      else if d.currentMove == some Move.barrier then
        { ms with damage := bump ms.damage d.id }
      else
        { ms with damage := bump ms.damage d.id }
  | some Move.egg =>
      if d.currentMove == some Move.barrier then
        { ms with refEgg := bump ms.refEgg a.id }
      else if d.currentMove == some Move.sausage && !d.hasEggSnapshot then
        { ms with egg := bump ms.egg d.id }
      else
        { ms with egg := bump ms.egg d.id }
  | _ => ms

/-- Phase 2 (INTERACTION) accumulation over all defenders and their
attackers. -/
def interactionMaps (living : List PlayerState) : Maps :=
  living.foldl
    (fun ms d => (attackersOf living d).foldl (fun ms a => interactPair d a ms) ms)
    { damage := fun _ => 0, egg := fun _ => 0, refEgg := fun _ => 0 }

/-- The function `addEgg` iterated n times (the `for` loops of the APPLY phase). -/
def addEggsN (p : PlayerState) (isReflected : Bool) : Nat → PlayerState
  | 0 => p
  | n + 1 => addEggsN (p.addEgg isReflected) isReflected n

/-- Phase 3 (APPLY) body for one living player: subtract accumulated
damage, then either instant death (two simultaneous incoming eggs, or one
incoming egg on top of a still-present pre-round effect) or append the
incoming effects. -/
def applyP (ms : Maps) (p : PlayerState) : PlayerState :=
  let p1 : PlayerState := { p with hp := p.hp - (ms.damage p.id : Int) }
  let newEggs := ms.egg p.id
  let refEggs := ms.refEgg p.id
  let totalIncoming := newEggs + refEggs
  if 2 ≤ totalIncoming then { p1 with hp := 0 }
  else if 0 < totalIncoming && p1.hasEggSnapshot && decide (0 < p1.eggs.length) then
    { p1 with hp := 0 }
  else addEggsN (addEggsN p1 false newEggs) true refEggs

/-- Phase 3 guarded by the `livingPlayers` view. -/
def applyStep (ms : Maps) (p : PlayerState) : PlayerState :=
  if p.isDead then p else applyP ms p

/-- Phase 3 (APPLY) over the whole roster. -/
def applyPhase (ms : Maps) (ps : List PlayerState) : List PlayerState :=
  ps.map (applyStep ms)

/-- The marking loop of checkDeaths: any living player at hp ≤ 0 dies. -/
def markDead (p : PlayerState) : PlayerState :=
  if !p.isDead && decide (p.hp ≤ 0) then { p with isDead := true } else p

/-- GameEngine.checkDeaths: mark every living player at hp ≤ 0 dead; if at
most one player survives, end the game and record the winner (the single
survivor's id, or none for a draw). -/
def checkDeaths (g : GameEngine) : GameEngine :=
  let ps := g.players.map markDead
  let survivors := ps.filter (fun p => !p.isDead)
  if survivors.length ≤ 1 then
    { g with players := ps, isGameOver := true,
             logs := g.logs ++ [GameLog.gameSet (survivors.head?.map (fun p => p.id))] }
  else { g with players := ps }

/-- Phase 5 body: a currently living player ticks their eggs. -/
def timerStep (p : PlayerState) : PlayerState :=
  if p.isDead then p else p.updateEggs.1

/-- Phase 5 (TIMERS): every currently living player ticks their eggs. -/
def timerPhase (ps : List PlayerState) : List PlayerState :=
  ps.map timerStep

/-- Cleanup body: clear pending move/target of every player that was
living at the start of the round (the JS loop runs over the
`livingPlayers` list captured before the death checks; identification is
by id, unique in the JS players Map). -/
def cleanupStep (livingIds : List Nat) (p : PlayerState) : PlayerState :=
  if livingIds.contains p.id then { p with currentMove := none, targetId := none }
  else p

/-- Cleanup over the whole roster. -/
def cleanupPhase (livingIds : List Nat) (ps : List PlayerState) : List PlayerState :=
  ps.map (cleanupStep livingIds)

/-- The roster state right after the APPLY phase. -/
def applyStage (g : GameEngine) : List PlayerState :=
  let ps1 := snapshotPhase g.players
  applyPhase (interactionMaps (livingOf ps1)) (curePhase ps1)

/-- The engine state right after the "Instant" death check (step 4 of
resolveTurn), before the timer phase runs. -/
def instantState (g : GameEngine) : GameEngine :=
  checkDeaths { g with players := applyStage g }

/-- Steps 5 onward of resolveTurn: timers, "Timer" death check, cleanup,
turn increment. -/
def afterInstant (livingIds : List Nat) (g1 : GameEngine) : GameEngine :=
  let g2 := checkDeaths { g1 with players := timerPhase g1.players }
  { g2 with players := cleanupPhase livingIds g2.players, turn := g2.turn + 1 }

/-- GameEngine.resolveTurn of src/game.js (log-string emission omitted;
see module comment). -/
def resolveTurn (g : GameEngine) : GameEngine :=
  afterInstant ((livingOf g.players).map (fun p => p.id)) (instantState g)

/-- GameEngine.registerMove of src/game.js, host/local path (the
client-side network branch forwards to the host and is out of scope):
silently ignore unknown or dead actors, otherwise set the pending
move/target and resolve the turn once every living player has committed. -/
def registerMove (g : GameEngine) (playerId : Nat) (action : Move)
    (targetId : Option Nat) : GameEngine :=
  match g.players.find? (fun p => p.id == playerId) with
  | none => g
  | some p =>
      if p.isDead then g
      else
        let ps := g.players.map (fun q =>
          if q.id == playerId then { q with currentMove := some action, targetId := targetId }
          else q)
        let g1 := { g with players := ps }
        let allReady := (livingOf ps).all (fun q => q.currentMove != none)
        if allReady then g1.resolveTurn else g1

/-- The number of Attack interactions landing in a round: over every
living defender, the attackers targeting them whose committed move is
Attack. -/
def numAttacks (living : List PlayerState) : Nat :=
  (living.map (fun d =>
    ((attackersOf living d).filter (fun a => a.currentMove == some Move.attack)).length)).sum

/-- Total of a per-id counter over a list of ids. -/
def sumOver (ids : List Nat) (m : Nat → Nat) : Nat :=
  (ids.map m).sum

/-- The composite effect of one resolved round on a single player record
(the per-element function that `resolveTurn` maps over the roster; see
`resolveTurn_players`). -/
def roundStep (ms : Maps) (livingIds : List Nat) (p : PlayerState) : PlayerState :=
  cleanupStep livingIds
    (markDead (timerStep (markDead (applyStep ms (cureStep (snapshotStep p))))))

/-- Fixture builder: a living player with empty history, no pending
snapshot flag, and the given hp, effects, committed move and target. -/
def mkP (i : Nat) (hp : Int) (eggs : List EggEffect) (mv : Option Move)
    (tgt : Option Nat) : PlayerState :=
  { id := i, hp := hp, eggs := eggs, history := [], isDead := false,
    currentMove := mv, targetId := tgt, hasEggSnapshot := false }

/-- Fixture builder: a first-round match state over the given roster. -/
def mkG (ps : List PlayerState) : GameEngine :=
  { players := ps, turn := 1, isGameOver := false, logs := [] }

/-- A player holding a single fresh (just-applied) curable effect. -/
def pFreshEgg : PlayerState := mkP 7 5 [⟨EGG_TIMER, false⟩] none none

/-- A player whose last two committed moves were both Sausage. -/
def pSausageLocked : PlayerState :=
  { mkP 0 5 [] none none with history := [some Move.sausage, some Move.sausage] }

/-- Match: the sausage-locked player plus an opponent with no move yet. -/
def gSausageLocked : GameEngine := mkG [pSausageLocked, mkP 1 5 [] none none]

/-- Round fixture: player 0 holds one old curable effect and commits
Sausage; player 1 throws an Egg at player 0. -/
def gSausageSurvives : GameEngine :=
  mkG [mkP 0 5 [⟨1, false⟩] (some Move.sausage) none,
       mkP 1 5 [] (some Move.egg) (some 0)]

/-- Round fixture: players 0 and 1 both throw Eggs at player 2, who
attacks player 0 (an instant-death round). -/
def gInstantDeathRound : GameEngine :=
  mkG [mkP 0 5 [] (some Move.egg) (some 2),
       mkP 1 5 [] (some Move.egg) (some 2),
       mkP 2 5 [] (some Move.attack) (some 0)]

/-- Round fixture: two attackers strike player 2 who is at 1 hp. -/
def gOverkillRound : GameEngine :=
  mkG [mkP 0 5 [] (some Move.attack) (some 2),
       mkP 1 5 [] (some Move.attack) (some 2),
       mkP 2 1 [] (some Move.attack) (some 0)]

/-- Round fixture: player 0 holds an old curable effect, attacks player 1
and is hit by player 1's Egg (the double-egg instant-death case). -/
def gDoubleEggDeath : GameEngine :=
  mkG [mkP 0 5 [⟨1, false⟩] (some Move.attack) (some 1),
       mkP 1 5 [] (some Move.egg) (some 0)]

/-- Round fixture: players 0 and 1 attack each other at 1 hp while
player 2 shelters behind a Barrier (two instant deaths, one survivor). -/
def gTwoDieInstant : GameEngine :=
  mkG [mkP 0 1 [] (some Move.attack) (some 1),
       mkP 1 1 [] (some Move.attack) (some 0),
       mkP 2 5 [] (some Move.barrier) none]

/-- The survivor of `gTwoDieInstant` as it stands after the APPLY phase. -/
def wSurvivor : PlayerState :=
  { id := 2, hp := 5, eggs := [], history := [some Move.barrier], isDead := false,
    currentMove := some Move.barrier, targetId := none, hasEggSnapshot := false }

/-- Round fixture: defender 0 (Sausage, no effects) reflects three
simultaneous Attacks. -/
def gReflectThree : GameEngine :=
  mkG [mkP 0 5 [] (some Move.sausage) none,
       mkP 1 5 [] (some Move.attack) (some 0),
       mkP 2 4 [] (some Move.attack) (some 0),
       mkP 3 1 [] (some Move.attack) (some 0)]

/-- The all-zero interaction accumulators. -/
def msZero : Maps := { damage := fun _ => 0, egg := fun _ => 0, refEgg := fun _ => 0 }

/-- A Sausage defender whose snapshot records a held effect. -/
def dSnap : PlayerState :=
  { mkP 0 5 [⟨1, false⟩] (some Move.sausage) none with hasEggSnapshot := true }

/-- An attacker committing Attack against player 0. -/
def aAtk : PlayerState := mkP 1 5 [] (some Move.attack) (some 0)

/-- The interaction accumulators a given match state produces this round. -/
def roundMaps (g : GameEngine) : Maps :=
  interactionMaps (livingOf (snapshotPhase g.players))

/-- The roster right after the snapshot and cure passes. -/
def cureStage (g : GameEngine) : List PlayerState :=
  curePhase (snapshotPhase g.players)

/-- A Sausage defender with no effects. -/
def reflectDefender (did : Nat) (dHp : Int) (dHist : List (Option Move))
    (dTgt : Option Nat) : PlayerState :=
  { id := did, hp := dHp, eggs := [], history := dHist, isDead := false,
    currentMove := some Move.sausage, targetId := dTgt, hasEggSnapshot := false }

/-- Scenario: one Sausage defender with no effects facing a roster of
simultaneous attackers. -/
def reflectScenario (did : Nat) (dHp : Int) (dHist : List (Option Move))
    (dTgt : Option Nat) (atks : List PlayerState) : GameEngine :=
  mkG (reflectDefender did dHp dHist dTgt :: atks)

end GameEngine

/-- Placeholder record used only as the default of positional lookup. -/
def defaultPlayer : PlayerState :=
  { id := 0, hp := 0, eggs := [], history := [], isDead := true,
    currentMove := none, targetId := none, hasEggSnapshot := false }

/-- Positional lookup into a roster. -/
def nth (ps : List PlayerState) (i : Nat) : PlayerState :=
  ps.getD i defaultPlayer

theorem nth_map_of_lt (f : PlayerState → PlayerState) (ps : List PlayerState)
    (i : Nat) (h : i < ps.length) : nth (ps.map f) i = f (nth ps i) := by
  unfold nth
  rw [List.getD_eq_getElem?_getD, List.getD_eq_getElem?_getD, List.getElem?_map,
    List.getElem?_eq_getElem h]
  simp

theorem nth_mem (ps : List PlayerState) (i : Nat) (h : i < ps.length) :
    nth ps i ∈ ps := by
  unfold nth
  rw [List.getD_eq_getElem?_getD, List.getElem?_eq_getElem h]
  exact List.getElem_mem h

theorem nth_cons_zero (p : PlayerState) (l : List PlayerState) : nth (p :: l) 0 = p := rfl

theorem nth_cons_succ (p : PlayerState) (l : List PlayerState) (j : Nat) :
    nth (p :: l) (j + 1) = nth l j := rfl

namespace GameEngine

theorem sumOver_cons (j : Nat) (rest : List Nat) (m : Nat → Nat) :
    sumOver (j :: rest) m = m j + sumOver rest m := by
  simp [sumOver]

theorem sumOver_congr (ids : List Nat) (m1 m2 : Nat → Nat)
    (h : ∀ x ∈ ids, m1 x = m2 x) : sumOver ids m1 = sumOver ids m2 := by
  unfold sumOver
  rw [List.map_congr_left h]

/-- Bumping one id present in a duplicate-free id list raises the total by
exactly one. -/
theorem sumOver_bump (ids : List Nat) (m : Nat → Nat) (i : Nat)
    (hnd : ids.Nodup) (hmem : i ∈ ids) :
    sumOver ids (bump m i) = sumOver ids m + 1 := by
  induction ids with
  | nil => cases hmem
  | cons j rest ih =>
      rw [List.nodup_cons] at hnd
      rw [sumOver_cons, sumOver_cons]
      rcases List.mem_cons.mp hmem with rfl | hmem2
      · have h1 : bump m i i = m i + 1 := by unfold bump; simp
        have h2 : sumOver rest (bump m i) = sumOver rest m := by
          apply sumOver_congr
          intro x hx
          unfold bump
          have hxi : x ≠ i := fun he => hnd.1 (he ▸ hx)
          simp [hxi]
        rw [h1, h2]
        omega
      · have hji : j ≠ i := fun he => hnd.1 (he ▸ hmem2)
        have h1 : bump m i j = m j := by unfold bump; simp [hji]
        rw [h1, ih hnd.2 hmem2]
        omega

theorem interactPair_damage_attack (d a : PlayerState) (ms : Maps)
    (h : a.currentMove = some Move.attack) :
    (interactPair d a ms).damage =
      if (d.currentMove == some Move.sausage && !d.hasEggSnapshot) = true then
        bump ms.damage a.id
      else bump ms.damage d.id := by
  simp only [interactPair, h]
  by_cases hs : (d.currentMove == some Move.sausage && !d.hasEggSnapshot) = true
  · rw [if_pos hs, if_pos hs]
  · rw [if_neg hs, if_neg hs]
    by_cases hb : (d.currentMove == some Move.barrier) = true
    · rw [if_pos hb]
    · rw [if_neg hb]

theorem interactPair_damage_non_attack (d a : PlayerState) (ms : Maps)
    (h : a.currentMove ≠ some Move.attack) :
    (interactPair d a ms).damage = ms.damage := by
  unfold interactPair
  cases hc : a.currentMove with
  | none => rfl
  | some mv =>
      cases mv with
      | attack => exact absurd hc h
      | egg =>
          show (if (d.currentMove == some Move.barrier) = true then
                  { ms with refEgg := bump ms.refEgg a.id }
                else if (d.currentMove == some Move.sausage && !d.hasEggSnapshot) = true then
                  { ms with egg := bump ms.egg d.id }
                else { ms with egg := bump ms.egg d.id }).damage = ms.damage
          split
          · rfl
          · split
            · rfl
            · rfl
      | sausage => rfl
      | barrier => rfl

theorem interactPair_of_no_offense (d a : PlayerState) (ms : Maps)
    (h1 : a.currentMove ≠ some Move.attack) (h2 : a.currentMove ≠ some Move.egg) :
    interactPair d a ms = ms := by
  unfold interactPair
  cases hc : a.currentMove with
  | none => rfl
  | some mv =>
      cases mv with
      | attack => exact absurd hc h1
      | egg => exact absurd hc h2
      | sausage => rfl
      | barrier => rfl

theorem foldl_interact_noop (d : PlayerState) (l : List PlayerState) (ms : Maps)
    (hl : ∀ x ∈ l, x.currentMove ≠ some Move.attack ∧ x.currentMove ≠ some Move.egg) :
    l.foldl (fun m a => interactPair d a m) ms = ms := by
  induction l generalizing ms with
  | nil => rfl
  | cons a rest ih =>
      rw [List.foldl_cons,
        interactPair_of_no_offense d a ms (hl a (List.mem_cons_self a rest)).1
          (hl a (List.mem_cons_self a rest)).2]
      exact ih ms (fun x hx => hl x (List.mem_cons_of_mem _ hx))

/-- Inner interaction fold: total damage over a duplicate-free id cover
grows by exactly the number of attacking attackers. -/
theorem foldl_damage_sum (ids : List Nat) (hnd : ids.Nodup)
    (d : PlayerState) (hd : d.id ∈ ids) (l : List PlayerState)
    (hl : ∀ x ∈ l, x.id ∈ ids) (ms : Maps) :
    sumOver ids (l.foldl (fun m a => interactPair d a m) ms).damage =
      sumOver ids ms.damage + l.countP (fun a => a.currentMove == some Move.attack) := by
  induction l generalizing ms with
  | nil => simp
  | cons a rest ih =>
      rw [List.foldl_cons, List.countP_cons,
        ih (fun x hx => hl x (List.mem_cons_of_mem _ hx)) (interactPair d a ms)]
      by_cases hatk : a.currentMove = some Move.attack
      · rw [interactPair_damage_attack d a ms hatk]
        have hbump : sumOver ids
            (if (d.currentMove == some Move.sausage && !d.hasEggSnapshot) = true then
              bump ms.damage a.id
            else bump ms.damage d.id) = sumOver ids ms.damage + 1 := by
          split
          · exact sumOver_bump ids ms.damage a.id hnd (hl a (List.mem_cons_self a rest))
          · exact sumOver_bump ids ms.damage d.id hnd hd
        rw [hbump]
        simp [hatk]
        omega
      · rw [interactPair_damage_non_attack d a ms hatk]
        simp [hatk]
  
/-- Outer interaction fold: total damage over a duplicate-free id cover
grows by the number of landing Attack interactions. -/
theorem foldl_outer_sum (living : List PlayerState) (ids : List Nat)
    (hnd : ids.Nodup) (hliv : ∀ x ∈ living, x.id ∈ ids)
    (l : List PlayerState) (hl : ∀ x ∈ l, x.id ∈ ids) (ms : Maps) :
    sumOver ids
        (l.foldl (fun m d => (attackersOf living d).foldl (fun m a => interactPair d a m) m)
          ms).damage =
      sumOver ids ms.damage +
        (l.map (fun d =>
          ((attackersOf living d).filter
            (fun a => a.currentMove == some Move.attack)).length)).sum := by
  induction l generalizing ms with
  | nil => simp
  | cons d rest ih =>
      rw [List.foldl_cons, List.map_cons, List.sum_cons,
        ih (fun x hx => hl x (List.mem_cons_of_mem _ hx))]
      have hattacker_ids : ∀ x ∈ attackersOf living d, x.id ∈ ids := by
        intro x hx
        exact hliv x (List.mem_of_mem_filter hx)
      rw [foldl_damage_sum ids hnd d (hl d (List.mem_cons_self d rest))
        (attackersOf living d) hattacker_ids ms]
      rw [List.countP_eq_length_filter]
      omega

end GameEngine

namespace GameEngine

/-- The roster after a full `resolveTurn` is a single map of `roundStep`
over the initial roster. -/
theorem resolveTurn_players (g : GameEngine) :
    (resolveTurn g).players =
      g.players.map
        (roundStep (interactionMaps (livingOf (snapshotPhase g.players)))
          ((livingOf g.players).map (fun p => p.id))) := by
  simp only [resolveTurn, afterInstant, instantState, applyStage, checkDeaths,
    snapshotPhase, curePhase, applyPhase, timerPhase, cleanupPhase, roundStep]
  split <;> split <;> simp [List.map_map, Function.comp_def] <;> exact fun a _ => rfl

/-- The roster right after the APPLY phase is a single map as well. -/
theorem applyStage_players (g : GameEngine) :
    applyStage g =
      g.players.map (fun p =>
        applyStep (interactionMaps (livingOf (snapshotPhase g.players)))
          (cureStep (snapshotStep p))) := by
  simp [applyStage, snapshotPhase, curePhase, applyPhase, List.map_map, Function.comp_def]

theorem resolveTurn_players_length (g : GameEngine) :
    (resolveTurn g).players.length = g.players.length := by
  rw [resolveTurn_players, List.length_map]

end GameEngine

namespace PlayerState

/-- Closed form of `removeEgg`: when a curable effect exists, exactly the
effects failing the curable test survive (by JS reference semantics the
`includes` test agrees with the curability predicate; see `removeEgg`). -/
theorem removeEgg_eq (p : PlayerState) (c : Bool) :
    p.removeEgg c =
      if (p.eggs.filter (fun e => !(c && e.isReflected))).length = 0 then (p, false)
      else ({ p with eggs := p.eggs.filter (fun e => c && e.isReflected) }, true) := by
  have hfil : p.eggs.filter
        (fun e => !((p.eggs.filter (fun e => !(c && e.isReflected))).contains e)) =
      p.eggs.filter (fun e => c && e.isReflected) := by
    apply List.filter_congr
    intro e he
    by_cases hr : (c && e.isReflected) = true
    · simp [List.mem_filter, hr]
    · have hr' : (c && e.isReflected) = false := by
        cases hcc : (c && e.isReflected) <;> simp_all
      simp [List.mem_filter, he, hr']
  simp only [removeEgg]
  by_cases h0 : p.eggs.length = 0
  · have he : p.eggs = [] := List.length_eq_zero.mp h0
    simp [he]
  · rw [if_neg h0]
    by_cases hc : (p.eggs.filter (fun e => !(c && e.isReflected))).length = 0
    · rw [if_pos hc, if_pos hc]
    · rw [if_neg hc, if_neg hc, hfil]

theorem removeEgg_isDead (p : PlayerState) (c : Bool) :
    (p.removeEgg c).1.isDead = p.isDead := by
  rw [removeEgg_eq]; split <;> rfl

theorem removeEgg_hp (p : PlayerState) (c : Bool) :
    (p.removeEgg c).1.hp = p.hp := by
  rw [removeEgg_eq]; split <;> rfl

theorem removeEgg_id (p : PlayerState) (c : Bool) :
    (p.removeEgg c).1.id = p.id := by
  rw [removeEgg_eq]; split <;> rfl

theorem removeEgg_hasEggSnapshot (p : PlayerState) (c : Bool) :
    (p.removeEgg c).1.hasEggSnapshot = p.hasEggSnapshot := by
  rw [removeEgg_eq]; split <;> rfl

theorem removeEgg_currentMove (p : PlayerState) (c : Bool) :
    (p.removeEgg c).1.currentMove = p.currentMove := by
  rw [removeEgg_eq]; split <;> rfl

/-- The post-cure effect list is always a sublist of the original one. -/
theorem removeEgg_eggs_sublist (p : PlayerState) (c : Bool) :
    (p.removeEgg c).1.eggs.Sublist p.eggs := by
  rw [removeEgg_eq]
  split
  · exact List.Sublist.refl _
  · exact List.filter_sublist _

end PlayerState

namespace GameEngine

theorem addEggsN_eq (b : Bool) (n : Nat) (p : PlayerState) :
    addEggsN p b n =
      { p with eggs := p.eggs ++ List.replicate n ⟨EGG_TIMER, b⟩ } := by
  induction n generalizing p with
  | zero => simp [addEggsN]
  | succ n ih =>
      rw [addEggsN, ih]
      simp [PlayerState.addEgg, List.replicate_succ]

/-- Closed form of the APPLY body. -/
theorem applyP_eq (ms : Maps) (p : PlayerState) :
    applyP ms p =
      if 2 ≤ ms.egg p.id + ms.refEgg p.id then
        { p with hp := 0 }
      else if 0 < ms.egg p.id + ms.refEgg p.id && p.hasEggSnapshot
              && decide (0 < p.eggs.length) then
        { p with hp := 0 }
      else
        { p with hp := p.hp - (ms.damage p.id : Int),
                 eggs := p.eggs ++ List.replicate (ms.egg p.id) ⟨EGG_TIMER, false⟩
                          ++ List.replicate (ms.refEgg p.id) ⟨EGG_TIMER, true⟩ } := by
  unfold applyP
  simp only [addEggsN_eq]

theorem applyP_isDead (ms : Maps) (p : PlayerState) :
    (applyP ms p).isDead = p.isDead := by
  rw [applyP_eq]
  split
  · rfl
  · split
    · rfl
    · rfl

theorem applyP_id (ms : Maps) (p : PlayerState) :
    (applyP ms p).id = p.id := by
  rw [applyP_eq]
  split
  · rfl
  · split
    · rfl
    · rfl

theorem snapshotP_isDead (p : PlayerState) : (snapshotP p).isDead = p.isDead := rfl

theorem cureStep_isDead (p : PlayerState) : (cureStep p).isDead = p.isDead := by
  unfold cureStep
  split
  · rfl
  · split
    · exact p.removeEgg_isDead true
    · rfl

theorem cureStep_hp (p : PlayerState) : (cureStep p).hp = p.hp := by
  unfold cureStep
  split
  · rfl
  · split
    · exact p.removeEgg_hp true
    · rfl

theorem cureStep_id (p : PlayerState) : (cureStep p).id = p.id := by
  unfold cureStep
  split
  · rfl
  · split
    · exact p.removeEgg_id true
    · rfl

theorem cureStep_hasEggSnapshot (p : PlayerState) :
    (cureStep p).hasEggSnapshot = p.hasEggSnapshot := by
  unfold cureStep
  split
  · rfl
  · split
    · exact p.removeEgg_hasEggSnapshot true
    · rfl

theorem cleanupStep_hp (lids : List Nat) (p : PlayerState) :
    (cleanupStep lids p).hp = p.hp := by
  unfold cleanupStep; split <;> rfl

theorem cleanupStep_eggs (lids : List Nat) (p : PlayerState) :
    (cleanupStep lids p).eggs = p.eggs := by
  unfold cleanupStep; split <;> rfl

theorem cleanupStep_isDead (lids : List Nat) (p : PlayerState) :
    (cleanupStep lids p).isDead = p.isDead := by
  unfold cleanupStep; split <;> rfl

theorem markDead_of_dead (p : PlayerState) (h : p.isDead = true) : markDead p = p := by
  unfold markDead; simp [h]

theorem markDead_of_pos (p : PlayerState) (h : ¬p.hp ≤ 0) : markDead p = p := by
  unfold markDead; simp [h]

theorem markDead_of_le (p : PlayerState) (h1 : p.isDead = false) (h2 : p.hp ≤ 0) :
    markDead p = { p with isDead := true } := by
  unfold markDead; simp [h1, h2]

theorem timerStep_of_dead (p : PlayerState) (h : p.isDead = true) : timerStep p = p := by
  unfold timerStep; simp [h]

/-- A player dead at the start of the round is only touched by the
cleanup pass; health, effects and deadness are unchanged. -/
theorem roundStep_dead (ms : Maps) (lids : List Nat) (p : PlayerState)
    (h : p.isDead = true) :
    (roundStep ms lids p).hp = p.hp ∧ (roundStep ms lids p).eggs = p.eggs ∧
      (roundStep ms lids p).isDead = true := by
  have hs : snapshotStep p = p := by unfold snapshotStep; simp [h]
  have hc : cureStep p = p := by unfold cureStep; simp [h]
  have ha : applyStep ms p = p := by unfold applyStep; simp [h]
  have hm : markDead p = p := by unfold markDead; simp [h]
  have ht : timerStep p = p := by unfold timerStep; simp [h]
  unfold roundStep
  rw [hs, hc, ha, hm, ht, hm]
  exact ⟨cleanupStep_hp lids p, cleanupStep_eggs lids p, by rw [cleanupStep_isDead]; exact h⟩

/-- Full characterization of one round's effect on a player alive at the
start of the round. -/
theorem roundStep_alive (ms : Maps) (lids : List Nat) (p : PlayerState)
    (h : p.isDead = false) :
    roundStep ms lids p =
      cleanupStep lids
        (if (applyP ms (cureStep (snapshotP p))).hp ≤ 0 then
          { applyP ms (cureStep (snapshotP p)) with isDead := true }
         else if ((applyP ms (cureStep (snapshotP p))).eggs.map
              (fun e => { e with turnsRemaining := e.turnsRemaining - 1 })).any
                (fun e => e.turnsRemaining < 0) then
          { applyP ms (cureStep (snapshotP p)) with
              eggs := (applyP ms (cureStep (snapshotP p))).eggs.map
                (fun e => { e with turnsRemaining := e.turnsRemaining - 1 }),
              hp := 0, isDead := true }
         else
          { applyP ms (cureStep (snapshotP p)) with
              eggs := (applyP ms (cureStep (snapshotP p))).eggs.map
                (fun e => { e with turnsRemaining := e.turnsRemaining - 1 }) }) := by
  have hs : snapshotStep p = snapshotP p := by unfold snapshotStep; simp [h]
  have hdead : (applyP ms (cureStep (snapshotP p))).isDead = false := by
    rw [applyP_isDead, cureStep_isDead, snapshotP_isDead, h]
  unfold roundStep
  rw [hs]
  have hca : applyStep ms (cureStep (snapshotP p)) = applyP ms (cureStep (snapshotP p)) := by
    unfold applyStep
    rw [cureStep_isDead, snapshotP_isDead, h]
    simp
  rw [hca]
  set w := applyP ms (cureStep (snapshotP p)) with hw
  by_cases hhp : w.hp ≤ 0
  · rw [markDead_of_le w hdead hhp,
      timerStep_of_dead { w with isDead := true } rfl,
      markDead_of_dead { w with isDead := true } rfl]
    simp [hhp]
  · rw [markDead_of_pos w hhp]
    have ht : timerStep w = w.updateEggs.1 := by
      unfold timerStep; simp [hdead]
    rw [ht]
    unfold PlayerState.updateEggs
    simp only [hhp, if_false]
    by_cases hex : (w.eggs.map
        (fun e => { e with turnsRemaining := e.turnsRemaining - 1 })).any
          (fun e => e.turnsRemaining < 0) = true
    · simp [hex, markDead]
    · simp [hex, markDead, hhp, hdead]

/-- The survivors of the marking pass of checkDeaths are exactly the
previously living players with positive health, unchanged. -/
theorem filter_markDead (l : List PlayerState) :
    (l.map markDead).filter (fun p => !p.isDead) =
      l.filter (fun p => !p.isDead && decide (0 < p.hp)) := by
  induction l with
  | nil => rfl
  | cons x xs ih =>
      simp only [List.map_cons, List.filter_cons]
      by_cases hd : x.isDead
      · rw [markDead_of_dead x hd]
        simp [hd, ih]
      · by_cases hh : x.hp ≤ 0
        · rw [markDead_of_le x (by simpa using hd) hh]
          simp [ih, not_lt.mpr hh]
        · rw [markDead_of_pos x hh]
          simp [hd, not_le.mp hh, ih]

theorem snapshotStep_of_alive (p : PlayerState) (h : p.isDead = false) :
    snapshotStep p = snapshotP p := by
  unfold snapshotStep; simp [h]

theorem nth_cureStage (g : GameEngine) (i : Nat) (h : i < g.players.length) :
    nth (cureStage g) i = cureStep (snapshotStep (nth g.players i)) := by
  unfold cureStage curePhase snapshotPhase
  rw [List.map_map, nth_map_of_lt _ _ i h]
  rfl

theorem nth_applyStage (g : GameEngine) (i : Nat) (h : i < g.players.length) :
    nth (applyStage g) i =
      applyStep (roundMaps g) (cureStep (snapshotStep (nth g.players i))) := by
  rw [applyStage_players, nth_map_of_lt _ _ i h]
  rfl

theorem nth_resolveTurn (g : GameEngine) (i : Nat) (h : i < g.players.length) :
    nth (resolveTurn g).players i =
      roundStep (roundMaps g) ((livingOf g.players).map (fun p => p.id))
        (nth g.players i) := by
  rw [resolveTurn_players, nth_map_of_lt _ _ i h]
  rfl

theorem cureStep_snapshotP_eggs_sublist (p : PlayerState) :
    (cureStep (snapshotP p)).eggs.Sublist p.eggs := by
  unfold cureStep
  split
  · exact List.Sublist.refl _
  · split
    · exact (snapshotP p).removeEgg_eggs_sublist true
    · exact List.Sublist.refl _

theorem cureStep_snapshotP_flag (p : PlayerState) :
    (cureStep (snapshotP p)).hasEggSnapshot = decide (0 < p.eggs.length) := by
  unfold cureStep
  split
  · rfl
  · split
    · rw [(snapshotP p).removeEgg_hasEggSnapshot true]
      rfl
    · rfl

theorem cureStep_snapshotP_id (p : PlayerState) :
    (cureStep (snapshotP p)).id = p.id := by
  rw [cureStep_id]
  rfl

theorem cureStep_snapshotP_hp (p : PlayerState) :
    (cureStep (snapshotP p)).hp = p.hp := by
  rw [cureStep_hp]
  rfl

/-- After one round, a player alive at its start ends either with health
forced to 0 or with exactly the accumulated damage subtracted. -/
theorem roundStep_hp_cases (ms : Maps) (lids : List Nat) (p : PlayerState)
    (h : p.isDead = false) :
    (roundStep ms lids p).hp = 0 ∨
    (roundStep ms lids p).hp = p.hp - (ms.damage p.id : Int) := by
  rw [roundStep_alive ms lids p h]
  set q := cureStep (snapshotP p) with hq
  have hw : (applyP ms q).hp = 0 ∨ (applyP ms q).hp = p.hp - (ms.damage p.id : Int) := by
    rw [applyP_eq]
    split
    · exact Or.inl rfl
    · split
      · exact Or.inl rfl
      · right
        show q.hp - (ms.damage q.id : Int) = p.hp - (ms.damage p.id : Int)
        rw [cureStep_snapshotP_id p, cureStep_snapshotP_hp p]
  by_cases hhp : (applyP ms q).hp ≤ 0
  · rw [if_pos hhp, cleanupStep_hp]
    exact hw
  · rw [if_neg hhp]
    split
    · rw [cleanupStep_hp]
      exact Or.inl rfl
    · rw [cleanupStep_hp]
      exact hw

theorem sumOver_zero (ids : List Nat) : sumOver ids (fun _ => 0) = 0 := by
  induction ids with
  | nil => rfl
  | cons j rest ih => rw [sumOver_cons, ih]

/-- The inner interaction fold of a no-effect Sausage defender against a
roster of pure attackers bumps the damage map once per attacker, at the
attacker's id, and touches nothing else. -/
theorem foldl_reflect_damage (d : PlayerState)
    (hd : (d.currentMove == some Move.sausage && !d.hasEggSnapshot) = true)
    (l : List PlayerState) (hl : ∀ x ∈ l, x.currentMove = some Move.attack) (ms : Maps) :
    l.foldl (fun m a => interactPair d a m) ms =
      { ms with damage := fun j => ms.damage j + l.countP (fun a => a.id == j) } := by
  induction l generalizing ms with
  | nil =>
      refine Maps.ext ?_ rfl rfl
      funext j
      simp
  | cons a rest ih =>
      rw [List.foldl_cons]
      have ha := hl a (List.mem_cons_self a rest)
      have hstep : interactPair d a ms = { ms with damage := bump ms.damage a.id } := by
        simp only [interactPair, ha]
        rw [if_pos hd]
      rw [hstep, ih (fun x hx => hl x (List.mem_cons_of_mem _ hx))]
      refine Maps.ext ?_ rfl rfl
      funext j
      dsimp only
      rw [List.countP_cons]
      unfold bump
      by_cases hj : j = a.id
      · subst hj
        simp
        omega
      · have hne : (a.id == j) = false := by
          simp [Ne.symm hj]
        simp [hj, hne]

theorem foldl_outer_noop (living : List PlayerState) (l : List PlayerState) (ms : Maps)
    (h : ∀ d ∈ l, ∀ m : Maps,
      (attackersOf living d).foldl (fun m a => interactPair d a m) m = m) :
    l.foldl (fun m d => (attackersOf living d).foldl (fun m a => interactPair d a m) m) ms
      = ms := by
  induction l generalizing ms with
  | nil => rfl
  | cons d rest ih =>
      rw [List.foldl_cons, h d (List.mem_cons_self d rest) ms]
      exact ih ms (fun x hx m => h x (List.mem_cons_of_mem _ hx) m)

/-- A player alive at round start with no effects and no incoming eggs
ends the round with exactly the accumulated damage subtracted. -/
theorem roundStep_hp_of_no_eggs (ms : Maps) (lids : List Nat) (p : PlayerState)
    (halive : p.isDead = false) (hegg : p.eggs = [])
    (hE : ms.egg p.id = 0) (hR : ms.refEgg p.id = 0) :
    (roundStep ms lids p).hp = p.hp - (ms.damage p.id : Int) := by
  rw [roundStep_alive ms lids p halive]
  have hqcure : cureStep (snapshotP p) = snapshotP p := by
    have hsnap : (snapshotP p).hasEggSnapshot = false := by
      show decide (0 < p.eggs.length) = false
      simp [hegg]
    unfold cureStep
    rw [snapshotP_isDead]
    simp [halive, hsnap]
  rw [hqcure]
  have hcond1 : ¬(2 ≤ ms.egg (snapshotP p).id + ms.refEgg (snapshotP p).id) := by
    show ¬(2 ≤ ms.egg p.id + ms.refEgg p.id)
    omega
  have hcond2 : (0 < ms.egg (snapshotP p).id + ms.refEgg (snapshotP p).id
      && (snapshotP p).hasEggSnapshot
      && decide (0 < (snapshotP p).eggs.length)) = false := by
    show (0 < ms.egg p.id + ms.refEgg p.id && _ && _) = false
    rw [hE, hR]
    simp
  have hwhp : (applyP ms (snapshotP p)).hp = p.hp - (ms.damage p.id : Int) := by
    rw [applyP_eq, if_neg hcond1, hcond2]
    rfl
  have hweggs : (applyP ms (snapshotP p)).eggs = [] := by
    rw [applyP_eq, if_neg hcond1, hcond2]
    show p.eggs ++ List.replicate (ms.egg p.id) _ ++ List.replicate (ms.refEgg p.id) _ = []
    rw [hegg, hE, hR]
    rfl
  by_cases hhp : (applyP ms (snapshotP p)).hp ≤ 0
  · rw [if_pos hhp, cleanupStep_hp]
    exact hwhp
  · rw [if_neg hhp]
    have hexp : (((applyP ms (snapshotP p)).eggs.map
        (fun e => { e with turnsRemaining := e.turnsRemaining - 1 })).any
          (fun e => e.turnsRemaining < 0)) = false := by
      rw [hweggs]
      rfl
    rw [hexp]
    simp only [Bool.false_eq_true, if_false]
    rw [cleanupStep_hp]
    exact hwhp

end GameEngine


open GameEngine PlayerState

/-- C3 counterexample: the claim says an effect whose `turnsRemaining`
still equals `EGG_TIMER` is "new" and immune to curing, but
`removeEgg(onlyCurable=true)` in src/game.js removes a fresh non-reflected
effect: it has no freshness test. -/
theorem claim3_fresh_egg_cured :
    (pFreshEgg.removeEgg true).2 = true ∧ (pFreshEgg.removeEgg true).1.eggs = [] := by
  decide

/-- C2 counterexample: a participant starting the round with exactly one
curable effect who receives exactly one new Egg survives when their
committed move is Sausage (the cure precedes effect application), so the
instant death does not occur "regardless of which move". -/
theorem claim2_sausage_survives :
    (nth (resolveTurn gSausageSurvives).players 0).hp = 5 ∧
    (nth (resolveTurn gSausageSurvives).players 0).isDead = false ∧
    (nth (resolveTurn gSausageSurvives).players 0).eggs = [⟨1, false⟩] := by
  decide

/-- C5 counterexample: in a round with an egg instant death, the total
health lost (6) differs from the number of landing Attack
interactions (1): health zeroed by the instant-death rule is not damage. -/
theorem claim5_instant_death_breaks_accounting :
    ¬(((livingOf gInstantDeathRound.players).map (fun p => p.hp)).sum -
        ((resolveTurn gInstantDeathRound).players.map (fun p => p.hp)).sum =
      (numAttacks (livingOf (snapshotPhase gInstantDeathRound.players)) : Int)) := by
  decide

/-- C8 counterexample: two simultaneous attackers on a defender at 1 hp
drive its health to -1; checkDeaths marks it dead but never clamps health
to 0, so health leaves the claimed 0..MAX_HP range. -/
theorem claim8_negative_health :
    (nth (resolveTurn gOverkillRound).players 2).hp < 0 := by
  decide

/-- C7 counterexample: registerMove does not re-validate the limited-use
guard: a Sausage committed by a player whose last two moves were Sausage
(guard-rejected) is accepted and mutates the pending move. -/
theorem claim7_guard_not_revalidated :
    canUseMove pSausageLocked Move.sausage = false ∧
    registerMove gSausageLocked 0 Move.sausage none ≠ gSausageLocked ∧
    (nth (registerMove gSausageLocked 0 Move.sausage none).players 0).currentMove
      = some Move.sausage := by
  decide

/-- C7 (amended): registerMove rejects exactly unknown or dead actors,
silently and without any mutation of the match state (no pending move set,
no resolution); the limited-use guard is not enforced here. -/
theorem claim7_register_rejects (g : GameEngine) (pid : Nat) (a : Move)
    (tgt : Option Nat) :
    (g.players.find? (fun p => p.id == pid) = none → registerMove g pid a tgt = g) ∧
    (∀ p, g.players.find? (fun p => p.id == pid) = some p → p.isDead = true →
      registerMove g pid a tgt = g) := by
  constructor
  · intro h
    unfold registerMove
    rw [h]
  · intro p h hdead
    unfold registerMove
    rw [h]
    simp [hdead]

/-- C7 witness: both rejection cases at concrete inputs. -/
theorem claim7_register_rejects_witness :
    registerMove gSausageLocked 9 Move.attack none = gSausageLocked ∧
    registerMove (mkG [{ mkP 4 0 [] none none with isDead := true }]) 4 Move.attack none
      = mkG [{ mkP 4 0 [] none none with isDead := true }] := by
  constructor
  · exact (claim7_register_rejects gSausageLocked 9 Move.attack none).1 (by decide)
  · exact (claim7_register_rejects (mkG [{ mkP 4 0 [] none none with isDead := true }])
      4 Move.attack none).2 { mkP 4 0 [] none none with isDead := true } (by decide) rfl

/-- C9: the guard constrains only Sausage: Sausage is disallowed exactly
when the most recent SAUSAGE_LIMIT (=2) committed moves are all Sausage;
shorter histories always allow it, and every other move is always
allowed. -/
theorem claim9_sausage_guard (p : PlayerState) (m : Move) :
    (canUseMove p Move.sausage = false ↔
      SAUSAGE_LIMIT ≤ p.history.length ∧
        ∀ mv ∈ p.history.drop (p.history.length - SAUSAGE_LIMIT),
          mv = some Move.sausage) ∧
    (p.history.length < SAUSAGE_LIMIT → canUseMove p Move.sausage = true) ∧
    (m ≠ Move.sausage → canUseMove p m = true) := by
  refine ⟨?_, ?_, ?_⟩
  · show p.canUseSausage = false ↔ _
    unfold PlayerState.canUseSausage
    by_cases hl : p.history.length < SAUSAGE_LIMIT
    · simp only [hl, if_true]
      constructor
      · intro h; cases h
      · intro h; exact absurd h.1 (by omega)
    · simp only [hl, if_false]
      simp [List.all_eq_true, not_lt.mp hl]
  · intro hl
    show p.canUseSausage = true
    unfold PlayerState.canUseSausage
    simp [hl]
  · intro hm
    cases m with
    | attack => rfl
    | egg => rfl
    | barrier => rfl
    | sausage => exact absurd rfl hm

/-- C9 witness: a player with two trailing Sausages is blocked from
Sausage but may still Attack. -/
theorem claim9_sausage_guard_witness :
    canUseMove pSausageLocked Move.sausage = false ∧
    canUseMove pSausageLocked Move.attack = true := by
  constructor
  · exact (claim9_sausage_guard pSausageLocked Move.attack).1.mpr (by decide)
  · exact (claim9_sausage_guard pSausageLocked Move.attack).2.2 (by decide)

/-- C4: whether a Sausage defender reflects an Attack is decided solely by
the hadEggAtStart snapshot: with the snapshot set the defender takes the
damage, without it the attacker does; the decision is invariant under the
defender's live effect list (and the rest of its mutable state); the
snapshot itself records exactly whether the start-of-round effect list was
nonempty, and curing never alters the snapshot flag. -/
theorem claim4_reflect_uses_snapshot (d a : PlayerState) (ms : Maps)
    (ha : a.currentMove = some Move.attack) (hd : d.currentMove = some Move.sausage) :
    (d.hasEggSnapshot = true →
      interactPair d a ms = { ms with damage := bump ms.damage d.id }) ∧
    (d.hasEggSnapshot = false →
      interactPair d a ms = { ms with damage := bump ms.damage a.id }) ∧
    (∀ es hp hist dead tgt,
      interactPair
        { d with eggs := es, hp := hp, history := hist, isDead := dead, targetId := tgt }
        a ms = interactPair d a ms) ∧
    (∀ q : PlayerState, (snapshotP q).hasEggSnapshot = decide (0 < q.eggs.length)) ∧
    (∀ q : PlayerState, ((q.removeEgg true).1).hasEggSnapshot = q.hasEggSnapshot) := by
  refine ⟨?_, ?_, ?_, fun q => rfl, fun q => q.removeEgg_hasEggSnapshot true⟩
  · intro h
    simp [interactPair, ha, hd, h]
  · intro h
    simp [interactPair, ha, hd, h]
  · intro es hp hist dead tgt
    rfl

/-- C4 witness: the snapshot-holding Sausage defender takes the hit. -/
theorem claim4_reflect_uses_snapshot_witness :
    interactPair dSnap aAtk msZero = { msZero with damage := bump msZero.damage dSnap.id } :=
  (claim4_reflect_uses_snapshot dSnap aAtk msZero rfl rfl).1 rfl

/-- C6: when exactly one living participant is left with positive health
after the APPLY phase (here: three participants, two of whom just hit
hp ≤ 0), the state produced by the "Instant" death check — the input of
the timer phase — already has the match over and that participant recorded
as winner; the timer phase runs only afterwards, on that state. -/
theorem claim6_winner_before_timer (g : GameEngine) (w : PlayerState)
    (h3 : (livingOf g.players).length = 3)
    (h2 : ((applyStage g).filter (fun p => !p.isDead && decide (p.hp ≤ 0))).length = 2)
    (hw : (applyStage g).filter (fun p => !p.isDead && decide (0 < p.hp)) = [w]) :
    (instantState g).isGameOver = true ∧
    (instantState g).logs = g.logs ++ [GameLog.gameSet (some w.id)] ∧
    resolveTurn g = afterInstant ((livingOf g.players).map (fun p => p.id)) (instantState g) := by
  have hsurv : ((applyStage g).map markDead).filter (fun p => !p.isDead) = [w] := by
    rw [filter_markDead]
    exact hw
  refine ⟨?_, ?_, rfl⟩
  · unfold instantState checkDeaths
    simp only [hsurv]
    rfl
  · unfold instantState checkDeaths
    simp only [hsurv]
    rfl

/-- C6 witness: the concrete two-instant-deaths round. -/
theorem claim6_winner_before_timer_witness :
    (instantState gTwoDieInstant).isGameOver = true ∧
    (instantState gTwoDieInstant).logs = [GameLog.gameSet (some 2)] := by
  have h := claim6_winner_before_timer gTwoDieInstant wSurvivor (by decide) (by decide)
    (by decide)
  exact ⟨h.1, by simpa using h.2.1⟩

/-- C1: in the APPLY phase, a participant whose total incoming egg count
this round is at least 2, or at least 1 while an uncured pre-round effect
is still held, has health forced to 0 and gains no new effects; otherwise
damage is subtracted and each new egg is appended curable, each reflected
egg uncurable. -/
theorem claim1_apply_phase (g : GameEngine) (i : Nat)
    (h : i < g.players.length) (halive : (nth g.players i).isDead = false) :
    ((2 ≤ (roundMaps g).egg (nth (cureStage g) i).id
            + (roundMaps g).refEgg (nth (cureStage g) i).id ∨
      (1 ≤ (roundMaps g).egg (nth (cureStage g) i).id
            + (roundMaps g).refEgg (nth (cureStage g) i).id ∧
        (nth (cureStage g) i).eggs ≠ [])) →
      (nth (applyStage g) i).hp = 0 ∧
        (nth (applyStage g) i).eggs = (nth (cureStage g) i).eggs) ∧
    (¬(2 ≤ (roundMaps g).egg (nth (cureStage g) i).id
            + (roundMaps g).refEgg (nth (cureStage g) i).id ∨
      (1 ≤ (roundMaps g).egg (nth (cureStage g) i).id
            + (roundMaps g).refEgg (nth (cureStage g) i).id ∧
        (nth (cureStage g) i).eggs ≠ [])) →
      (nth (applyStage g) i).hp =
        (nth (cureStage g) i).hp
          - ((roundMaps g).damage (nth (cureStage g) i).id : Int) ∧
      (nth (applyStage g) i).eggs =
        (nth (cureStage g) i).eggs
          ++ List.replicate ((roundMaps g).egg (nth (cureStage g) i).id)
              ⟨EGG_TIMER, false⟩
          ++ List.replicate ((roundMaps g).refEgg (nth (cureStage g) i).id)
              ⟨EGG_TIMER, true⟩) := by
  rw [nth_cureStage g i h, nth_applyStage g i h,
    snapshotStep_of_alive (nth g.players i) halive]
  set p0 := nth g.players i with hp0
  set q := cureStep (snapshotP p0) with hqdef
  have hqd : q.isDead = false := by
    rw [hqdef, cureStep_isDead, snapshotP_isDead]
    exact halive
  have happ : applyStep (roundMaps g) q = applyP (roundMaps g) q := by
    unfold applyStep
    rw [hqd]
    simp
  rw [happ, applyP_eq]
  constructor
  · rintro (h2 | ⟨h1, hne⟩)
    · rw [if_pos h2]
      exact ⟨rfl, rfl⟩
    · by_cases h2 : 2 ≤ (roundMaps g).egg q.id + (roundMaps g).refEgg q.id
      · rw [if_pos h2]
        exact ⟨rfl, rfl⟩
      · have hpe : p0.eggs ≠ [] := by
          intro hnil
          apply hne
          have := cureStep_snapshotP_eggs_sublist p0
          rw [hnil] at this
          exact List.sublist_nil.mp (hqdef ▸ this)
        have hflag : q.hasEggSnapshot = true := by
          rw [hqdef, cureStep_snapshotP_flag]
          simpa using List.length_pos.mpr hpe
        have hcond : (0 < (roundMaps g).egg q.id + (roundMaps g).refEgg q.id
            && q.hasEggSnapshot && decide (0 < q.eggs.length)) = true := by
          simp [hflag, List.length_pos.mpr hne]
          omega
        rw [if_neg h2, hcond]
        exact ⟨rfl, rfl⟩
  · intro hnc
    obtain ⟨h2, hb⟩ := not_or.mp hnc
    have hcond : (0 < (roundMaps g).egg q.id + (roundMaps g).refEgg q.id
        && q.hasEggSnapshot && decide (0 < q.eggs.length)) = false := by
      by_cases h1 : 1 ≤ (roundMaps g).egg q.id + (roundMaps g).refEgg q.id
      · have hne : q.eggs = [] := by
          by_contra hne
          exact hb ⟨h1, hne⟩
        simp [hne]
      · have h0 : (roundMaps g).egg q.id + (roundMaps g).refEgg q.id = 0 := by omega
        simp [h0]
    rw [if_neg h2, hcond]
    exact ⟨rfl, rfl⟩

/-- C1 witness: the instant-death branch fires on the double-egg fixture
and adds no effects. -/
theorem claim1_apply_phase_witness :
    (nth (applyStage gDoubleEggDeath) 0).hp = 0 ∧
    (nth (applyStage gDoubleEggDeath) 0).eggs = (nth (cureStage gDoubleEggDeath) 0).eggs :=
  (claim1_apply_phase gDoubleEggDeath 0 (by decide) (by decide)).1 (by decide)

/-- C2 (amended): a participant alive at the start of the round dies
instantly (health forced to 0, marked dead) when they hold an effect,
commit any move other than Sausage, and at least one egg-type effect comes
in; or when they hold no effect and at least two come in.  (A Sausage
committer first cures a curable held effect and survives a single incoming
egg; see the counterexample.) -/
theorem claim2_instant_death (g : GameEngine) (i : Nat)
    (h : i < g.players.length) (halive : (nth g.players i).isDead = false)
    (hcase :
      ((nth g.players i).eggs ≠ [] ∧
        (nth g.players i).currentMove ≠ some Move.sausage ∧
        1 ≤ (roundMaps g).egg (nth g.players i).id
              + (roundMaps g).refEgg (nth g.players i).id) ∨
      ((nth g.players i).eggs = [] ∧
        2 ≤ (roundMaps g).egg (nth g.players i).id
              + (roundMaps g).refEgg (nth g.players i).id)) :
    (nth (resolveTurn g).players i).hp = 0 ∧
    (nth (resolveTurn g).players i).isDead = true := by
  rw [nth_resolveTurn g i h]
  set p0 := nth g.players i with hp0
  rw [roundStep_alive _ _ p0 halive]
  have hqcure : cureStep (snapshotP p0) = snapshotP p0 := by
    rcases hcase with ⟨hne, hmv, h1⟩ | ⟨hnil, h2⟩
    · have hmv2 : ((snapshotP p0).currentMove == some Move.sausage) = false := by
        have : (snapshotP p0).currentMove = p0.currentMove := rfl
        rw [this]
        simpa using hmv
      unfold cureStep
      rw [snapshotP_isDead]
      simp [halive, hmv2]
    · have hsnap : (snapshotP p0).hasEggSnapshot = false := by
        show decide (0 < p0.eggs.length) = false
        simp [hnil]
      unfold cureStep
      rw [snapshotP_isDead]
      simp [halive, hsnap]
  rw [hqcure]
  have hwhp : (applyP (roundMaps g) (snapshotP p0)).hp = 0 := by
    rw [applyP_eq]
    rcases hcase with ⟨hne, hmv, h1⟩ | ⟨hnil, h2⟩
    · by_cases h2 : 2 ≤ (roundMaps g).egg (snapshotP p0).id
          + (roundMaps g).refEgg (snapshotP p0).id
      · rw [if_pos h2]
      · have hsnap : (snapshotP p0).hasEggSnapshot = true := by
          show decide (0 < p0.eggs.length) = true
          simpa using List.length_pos.mpr hne
        have hlen : decide (0 < (snapshotP p0).eggs.length) = true := by
          show decide (0 < p0.eggs.length) = true
          simpa using List.length_pos.mpr hne
        have hcond : (0 < (roundMaps g).egg (snapshotP p0).id
              + (roundMaps g).refEgg (snapshotP p0).id
            && (snapshotP p0).hasEggSnapshot
            && decide (0 < (snapshotP p0).eggs.length)) = true := by
          simp [hsnap, hlen]
          have h1x : 1 ≤ (roundMaps g).egg (snapshotP p0).id
              + (roundMaps g).refEgg (snapshotP p0).id := h1
          omega
        rw [if_neg h2, hcond]
        simp only [if_true]
    · have h2x : 2 ≤ (roundMaps g).egg (snapshotP p0).id
          + (roundMaps g).refEgg (snapshotP p0).id := h2
      rw [if_pos h2x]
  rw [if_pos (le_of_eq hwhp)]
  refine ⟨?_, ?_⟩
  · rw [cleanupStep_hp]
    exact hwhp
  · rw [cleanupStep_isDead]

/-- C2 witness: the non-Sausage holder of one curable effect dies to a
single incoming Egg. -/
theorem claim2_instant_death_witness :
    (nth (resolveTurn gDoubleEggDeath).players 0).hp = 0 ∧
    (nth (resolveTurn gDoubleEggDeath).players 0).isDead = true :=
  claim2_instant_death gDoubleEggDeath 0 (by decide) (by decide) (by decide)

/-- C3 (amended): removeEgg with curableOnly removes every non-reflected
effect regardless of freshness (a fresh effect is not immune; see the
counterexample); nevertheless an effect applied in a round can never be
cured in that round, because all cures run during the interaction phase
before any new effect is applied — so every effect this round adds to a
participant who survives resolution is still present at the end of the
round, with its timer ticked once. -/
theorem claim3_effects_survive_round (g : GameEngine) (i : Nat)
    (h : i < g.players.length) :
    (∀ q : PlayerState, q.eggs.filter (fun e => !e.isReflected) ≠ [] →
      q.removeEgg true =
        ({ q with eggs := q.eggs.filter (fun e => e.isReflected) }, true)) ∧
    ((nth (resolveTurn g).players i).isDead = false →
      List.IsSuffix
        (List.replicate ((roundMaps g).egg (nth g.players i).id)
            ⟨EGG_TIMER - 1, false⟩ ++
         List.replicate ((roundMaps g).refEgg (nth g.players i).id)
            ⟨EGG_TIMER - 1, true⟩)
        ((nth (resolveTurn g).players i).eggs)) := by
  constructor
  · intro q hq
    rw [PlayerState.removeEgg_eq]
    have hpred : (fun (e : EggEffect) => !(true && e.isReflected)) =
        (fun e => !e.isReflected) := by
      funext e
      simp
    rw [hpred]
    rw [if_neg (fun hlen => hq (List.length_eq_zero.mp hlen))]
    have hpred2 : (fun (e : EggEffect) => true && e.isReflected) =
        (fun e => e.isReflected) := by
      funext e
      simp
    rw [hpred2]
  · intro hF
    by_cases hd : (nth g.players i).isDead = true
    · exfalso
      rw [nth_resolveTurn g i h] at hF
      rw [(roundStep_dead (roundMaps g) ((livingOf g.players).map (fun p => p.id))
        (nth g.players i) hd).2.2] at hF
      cases hF
    · have halive : (nth g.players i).isDead = false := by simpa using hd
      rw [nth_resolveTurn g i h] at hF ⊢
      rw [roundStep_alive _ _ _ halive] at hF ⊢
      rw [cleanupStep_isDead] at hF
      set q := cureStep (snapshotP (nth g.players i)) with hqdef
      have hid : q.id = (nth g.players i).id := cureStep_snapshotP_id _
      by_cases hhp : (applyP (roundMaps g) q).hp ≤ 0
      · rw [if_pos hhp] at hF
        simp at hF
      · rw [if_neg hhp] at hF ⊢
        by_cases hex : (((applyP (roundMaps g) q).eggs.map
            (fun e => { e with turnsRemaining := e.turnsRemaining - 1 })).any
              (fun e => e.turnsRemaining < 0)) = true
        · rw [if_pos hex] at hF
          simp at hF
        · rw [if_neg hex]
          rw [cleanupStep_eggs]
          have hw3 : (applyP (roundMaps g) q).eggs =
              q.eggs
                ++ List.replicate ((roundMaps g).egg q.id) ⟨EGG_TIMER, false⟩
                ++ List.replicate ((roundMaps g).refEgg q.id) ⟨EGG_TIMER, true⟩ := by
            by_cases hA : 2 ≤ (roundMaps g).egg q.id + (roundMaps g).refEgg q.id
            · exfalso
              apply hhp
              rw [applyP_eq, if_pos hA]
            · by_cases hB : (0 < (roundMaps g).egg q.id + (roundMaps g).refEgg q.id
                  && q.hasEggSnapshot && decide (0 < q.eggs.length)) = true
              · exfalso
                apply hhp
                rw [applyP_eq, if_neg hA, hB]
                exact le_refl 0
              · have hB2 : (0 < (roundMaps g).egg q.id + (roundMaps g).refEgg q.id
                    && q.hasEggSnapshot && decide (0 < q.eggs.length)) = false := by
                  simpa using hB
                rw [applyP_eq, if_neg hA, hB2]
                rfl
          rw [hw3, hid, List.map_append, List.map_append, List.map_replicate,
            List.map_replicate]
          exact ⟨(q.eggs.map (fun e => { e with turnsRemaining := e.turnsRemaining - 1 })),
            (List.append_assoc _ _ _).symm⟩

/-- C3 witness: the fresh-egg player is fully cured (freshness-blind
removal), and the egg planted on the surviving Sausage player is still
present, ticked, after resolution. -/
theorem claim3_effects_survive_round_witness :
    pFreshEgg.removeEgg true =
      ({ pFreshEgg with eggs := pFreshEgg.eggs.filter (fun e => e.isReflected) }, true) ∧
    List.IsSuffix
      (List.replicate ((roundMaps gSausageSurvives).egg
          (nth gSausageSurvives.players 0).id) ⟨EGG_TIMER - 1, false⟩ ++
       List.replicate ((roundMaps gSausageSurvives).refEgg
          (nth gSausageSurvives.players 0).id) ⟨EGG_TIMER - 1, true⟩)
      ((nth (resolveTurn gSausageSurvives).players 0).eggs) := by
  constructor
  · exact (claim3_effects_survive_round gSausageSurvives 0 (by decide)).1 pFreshEgg (by decide)
  · exact (claim3_effects_survive_round gSausageSurvives 0 (by decide)).2 (by decide)

/-- C8 (amended): across a resolved round no participant's health ever
increases above max(previous health, 0) — in particular it stays at or
below MAX_HP when it started there — but it is NOT clamped at 0 and can go
negative under simultaneous attackers (see the counterexample). -/
theorem claim8_health_upper_bound (g : GameEngine) (i : Nat)
    (h : i < g.players.length) :
    (nth (resolveTurn g).players i).hp ≤ max (nth g.players i).hp 0 ∧
    ((nth g.players i).hp ≤ MAX_HP → (nth (resolveTurn g).players i).hp ≤ MAX_HP) := by
  have hmain : (nth (resolveTurn g).players i).hp ≤ max (nth g.players i).hp 0 := by
    rw [nth_resolveTurn g i h]
    by_cases hd : (nth g.players i).isDead = true
    · rw [(roundStep_dead _ _ _ hd).1]
      exact le_max_left _ _
    · have halive : (nth g.players i).isDead = false := by simpa using hd
      rcases roundStep_hp_cases (roundMaps g) ((livingOf g.players).map (fun p => p.id))
          _ halive with h0 | hsub
      · rw [h0]
        exact le_max_right _ _
      · rw [hsub]
        have hnn : (0 : Int) ≤ ((roundMaps g).damage (nth g.players i).id : Int) :=
          Int.natCast_nonneg _
        have hmx := le_max_left (nth g.players i).hp (0 : Int)
        omega
  refine ⟨hmain, fun hle => ?_⟩
  have hmx2 : max (nth g.players i).hp 0 ≤ MAX_HP := max_le hle (by decide)
  exact le_trans hmain hmx2

/-- C8 witness: the bound holds on the overkill fixture. -/
theorem claim8_health_upper_bound_witness :
    (nth (resolveTurn gOverkillRound).players 0).hp ≤ max (nth gOverkillRound.players 0).hp 0 ∧
    ((nth gOverkillRound.players 0).hp ≤ MAX_HP →
      (nth (resolveTurn gOverkillRound).players 0).hp ≤ MAX_HP) :=
  claim8_health_upper_bound gOverkillRound 0 (by decide)

/-- C5 (amended): each Attack by a living participant on a living,
distinct target accumulates exactly one point of damage, borne by the
defender or (on a reflect) the attacker, so the total damage accumulated
over all participants equals the number of Attack interactions landing
that round.  (Raw health lost additionally includes health zeroed by egg
instant deaths and timer explosions, so the sum of health lost exceeds
this count in such rounds; see the counterexample.) -/
theorem claim5_damage_equals_attacks (g : GameEngine)
    (hnd : ((livingOf (snapshotPhase g.players)).map (fun p => p.id)).Nodup) :
    ((livingOf (snapshotPhase g.players)).map
        (fun p => (roundMaps g).damage p.id)).sum
      = numAttacks (livingOf (snapshotPhase g.players)) := by
  have hconv : ((livingOf (snapshotPhase g.players)).map
      (fun p => (roundMaps g).damage p.id)).sum
      = sumOver ((livingOf (snapshotPhase g.players)).map (fun p => p.id))
          (roundMaps g).damage := by
    unfold sumOver
    rw [List.map_map]
    rfl
  rw [hconv]
  unfold roundMaps interactionMaps
  rw [foldl_outer_sum (livingOf (snapshotPhase g.players))
    ((livingOf (snapshotPhase g.players)).map (fun p => p.id)) hnd
    (fun x hx => List.mem_map_of_mem _ hx)
    (livingOf (snapshotPhase g.players))
    (fun x hx => List.mem_map_of_mem _ hx) _]
  rw [show (({ damage := fun _ => 0, egg := fun _ => 0, refEgg := fun _ => 0 } : Maps)).damage
      = (fun _ => 0) from rfl]
  rw [sumOver_zero]
  simp [numAttacks]

/-- C5 witness: the accounting holds on the instant-death fixture (one
landing Attack, one damage point). -/
theorem claim5_damage_equals_attacks_witness :
    ((livingOf (snapshotPhase gInstantDeathRound.players)).map
        (fun p => (roundMaps gInstantDeathRound).damage p.id)).sum
      = numAttacks (livingOf (snapshotPhase gInstantDeathRound.players)) :=
  claim5_damage_equals_attacks gInstantDeathRound (by decide)

/-- C10: one Sausage defender with no effect at round start reflects any
number k of simultaneous Attacks: every attacker ends the round with
exactly one health point lost and the defender's health is unchanged;
there is no cap on k. -/
theorem claim10_one_sausage_reflects_all (did : Nat) (dHp : Int)
    (dHist : List (Option Move)) (dTgt : Option Nat) (atks : List PlayerState)
    (hk : 1 ≤ atks.length)
    (hA : ∀ a ∈ atks, a.isDead = false ∧ a.eggs = [] ∧
      a.currentMove = some Move.attack ∧ a.targetId = some did ∧ a.id ≠ did)
    (hN : (atks.map (fun a => a.id)).Nodup) :
    (nth (resolveTurn (reflectScenario did dHp dHist dTgt atks)).players 0).hp = dHp ∧
    (∀ j, j < atks.length →
      (nth (resolveTurn (reflectScenario did dHp dHist dTgt atks)).players (j + 1)).hp
        = (nth atks j).hp - 1) := by
  set g := reflectScenario did dHp dHist dTgt atks with hg
  set dfd : PlayerState := reflectDefender did dHp dHist dTgt with hdfd
  have hgp : g.players = dfd :: atks := rfl
  have hsnap : snapshotPhase g.players = snapshotP dfd :: atks.map snapshotP := by
    rw [hgp]
    unfold snapshotPhase
    rw [List.map_cons]
    congr 1
    apply List.map_congr_left
    intro x hx
    exact snapshotStep_of_alive x (hA x hx).1
  have hliving : livingOf (snapshotPhase g.players)
      = snapshotP dfd :: atks.map snapshotP := by
    rw [hsnap]
    unfold livingOf
    rw [List.filter_cons]
    have h1 : (!(snapshotP dfd).isDead) = true := rfl
    rw [h1]
    simp only [if_true]
    congr 1
    apply List.filter_eq_self.mpr
    intro x hx
    obtain ⟨b, hb, rfl⟩ := List.mem_map.mp hx
    show (!(snapshotP b).isDead) = true
    have : (snapshotP b).isDead = b.isDead := rfl
    rw [this, (hA b hb).1]
    rfl
  have hcond : ((snapshotP dfd).currentMove == some Move.sausage
      && !(snapshotP dfd).hasEggSnapshot) = true := rfl
  have hattd : attackersOf (snapshotP dfd :: atks.map snapshotP) (snapshotP dfd)
      = atks.map snapshotP := by
    unfold attackersOf
    rw [List.filter_cons]
    have hself : ((snapshotP dfd).targetId == some (snapshotP dfd).id
        && (snapshotP dfd).id != (snapshotP dfd).id) = false := by
      simp
    rw [hself]
    simp only [Bool.false_eq_true, if_false]
    apply List.filter_eq_self.mpr
    intro x hx
    obtain ⟨b, hb, rfl⟩ := List.mem_map.mp hx
    have htgt : (snapshotP b).targetId = some did := (hA b hb).2.2.2.1
    have hid : (snapshotP b).id = b.id := rfl
    rw [Bool.and_eq_true]
    constructor
    · rw [htgt]
      simp [show (snapshotP dfd).id = did from rfl]
    · rw [hid]
      simp [show (snapshotP dfd).id = did from rfl, (hA b hb).2.2.2.2]
  have hmaps : interactionMaps (snapshotP dfd :: atks.map snapshotP) =
      { damage := fun j => 0 + (atks.map snapshotP).countP (fun a => a.id == j),
        egg := fun _ => 0, refEgg := fun _ => 0 } := by
    unfold interactionMaps
    rw [List.foldl_cons, hattd,
      foldl_reflect_damage (snapshotP dfd) hcond (atks.map snapshotP)
        (by
          intro x hx
          obtain ⟨b, hb, rfl⟩ := List.mem_map.mp hx
          exact (hA b hb).2.2.1) _]
    apply foldl_outer_noop
    intro d2 hd2 m
    apply foldl_interact_noop
    intro x hx
    have hx1 : x ∈ (snapshotP dfd :: atks.map snapshotP) := List.mem_of_mem_filter hx
    have hx2 := List.of_mem_filter hx
    rcases List.mem_cons.mp hx1 with rfl | hx3
    · constructor
      · intro hcon
        cases hcon
      · intro hcon
        cases hcon
    · exfalso
      obtain ⟨b, hb, rfl⟩ := List.mem_map.mp hx3
      obtain ⟨c, hc, rfl⟩ := List.mem_map.mp hd2
      rw [Bool.and_eq_true] at hx2
      have htgt : ((snapshotP b).targetId == some (snapshotP c).id) = true := hx2.1
      have htg2 : (snapshotP b).targetId = some did := (hA b hb).2.2.2.1
      rw [htg2] at htgt
      have : did = (snapshotP c).id := by simpa using htgt
      exact (hA c hc).2.2.2.2 (by rw [show (snapshotP c).id = c.id from rfl] at this; exact this.symm)
  have hdmg : ∀ j, (roundMaps g).damage j = atks.countP (fun a => a.id == j) := by
    intro j
    show (interactionMaps (livingOf (snapshotPhase g.players))).damage j = _
    rw [hliving, hmaps]
    dsimp only
    rw [List.countP_map, Nat.zero_add]
    exact List.countP_congr (fun a ha => Iff.rfl)
  have heggz : ∀ j, (roundMaps g).egg j = 0 := by
    intro j
    show (interactionMaps (livingOf (snapshotPhase g.players))).egg j = _
    rw [hliving, hmaps]
  have hrefz : ∀ j, (roundMaps g).refEgg j = 0 := by
    intro j
    show (interactionMaps (livingOf (snapshotPhase g.players))).refEgg j = _
    rw [hliving, hmaps]
  constructor
  · have h0 : (0 : Nat) < g.players.length := by
      rw [hgp]
      simp
    rw [nth_resolveTurn g 0 h0]
    have hnth0 : nth g.players 0 = dfd := by
      rw [hgp]
      exact nth_cons_zero dfd atks
    rw [hnth0]
    rw [roundStep_hp_of_no_eggs _ _ dfd rfl rfl (heggz dfd.id) (hrefz dfd.id)]
    have hz : atks.countP (fun a => a.id == dfd.id) = 0 := by
      rw [List.countP_eq_zero]
      intro a ha
      simp [show dfd.id = did from rfl, (hA a ha).2.2.2.2]
    rw [hdmg dfd.id, hz]
    simp [hdfd, reflectDefender]
  · intro j hj
    have hjlt : j + 1 < g.players.length := by
      rw [hgp]
      simpa using Nat.succ_lt_succ hj
    rw [nth_resolveTurn g (j + 1) hjlt]
    have hnth : nth g.players (j + 1) = nth atks j := by
      rw [hgp]
      exact nth_cons_succ dfd atks j
    rw [hnth]
    have hmem : nth atks j ∈ atks := nth_mem atks j hj
    rw [roundStep_hp_of_no_eggs _ _ (nth atks j) (hA _ hmem).1 (hA _ hmem).2.1
      (heggz (nth atks j).id) (hrefz (nth atks j).id)]
    rw [hdmg (nth atks j).id]
    have h1 : atks.countP (fun x => x.id == (nth atks j).id) = 1 := by
      have hcp : atks.countP (fun x => x.id == (nth atks j).id)
          = (atks.map (fun x => x.id)).count (nth atks j).id := by
        rw [List.count_eq_countP, List.countP_map]
        rfl
      rw [hcp]
      exact List.count_eq_one_of_mem hN (List.mem_map_of_mem _ hmem)
    rw [h1]
    simp

/-- C10 witness: the three-attacker fixture. -/
theorem claim10_one_sausage_reflects_all_witness :
    (nth (resolveTurn (reflectScenario 0 5 [] none
        [mkP 1 5 [] (some Move.attack) (some 0),
         mkP 2 4 [] (some Move.attack) (some 0),
         mkP 3 1 [] (some Move.attack) (some 0)])).players 0).hp = 5 ∧
    (∀ j, j < ([mkP 1 5 [] (some Move.attack) (some 0),
         mkP 2 4 [] (some Move.attack) (some 0),
         mkP 3 1 [] (some Move.attack) (some 0)] : List PlayerState).length →
      (nth (resolveTurn (reflectScenario 0 5 [] none
        [mkP 1 5 [] (some Move.attack) (some 0),
         mkP 2 4 [] (some Move.attack) (some 0),
         mkP 3 1 [] (some Move.attack) (some 0)])).players (j + 1)).hp
        = (nth [mkP 1 5 [] (some Move.attack) (some 0),
         mkP 2 4 [] (some Move.attack) (some 0),
         mkP 3 1 [] (some Move.attack) (some 0)] j).hp - 1) :=
  claim10_one_sausage_reflects_all 0 5 [] none _ (by decide) (by decide) (by decide)

end Egg



